import Mathlib

/-!
Verification development for the DIGRA benchmark wrappers
(src/apps/build_wrapper.cpp, search_wrapper.cpp,
index_construction_and_query_execution.cpp, csv_to_data_converter.cpp,
fanns_survey_helpers.cpp).

Text files are embedded as lists of characters (or lists of lines),
binary files as lists of bytes (naturals below 256).  C++ machine
integers are embedded as Lean Int; the wrappers' arithmetic never
relies on overflow in the scenarios covered by the claims.  The DIGRA
core (TreeHNSW.hpp, utils.hpp) is not part of the repository snapshot;
where a claim depends on it, the corresponding definition is modelled
from the specification and says so in its doc comment.
-/

namespace Digra

/-- Whitespace predicate of the C locale, as used by formatted stream
extraction (isspace). -/
def isWs (c : Char) : Bool :=
  c = ' ' || c = '\t' || c = '\n' || c = '\r' || c = '\x0b' || c = '\x0c'

/-- Character for a single decimal digit value. -/
def digitToChar (d : Nat) : Char :=
  match d with
  | 0 => '0' | 1 => '1' | 2 => '2' | 3 => '3' | 4 => '4'
  | 5 => '5' | 6 => '6' | 7 => '7' | 8 => '8' | _ => '9'

/-- Numeric value of a decimal digit character. -/
def charToDigit (c : Char) : Nat := c.toNat - 48

/-- Value of a most-significant-first run of decimal digit characters. -/
def parseDigits (cs : List Char) : Nat :=
  cs.foldl (fun acc c => 10 * acc + charToDigit c) 0

/-- Decimal rendering of a natural number, most significant digit first,
as produced by the C++ stream insertion operator. -/
def renderNat (n : Nat) : List Char :=
  if n = 0 then ['0'] else ((Nat.digits 10 n).reverse.map digitToChar)

/-- Decimal rendering of an integer, with a leading minus sign for
negative values, as produced by the C++ stream insertion operator. -/
def renderInt (v : Int) : List Char :=
  if v < 0 then '-' :: renderNat (-v).toNat else renderNat v.toNat

/-- Maximal leading run of decimal digits: the value and the remaining
stream, or none when the stream does not start with a digit. -/
def parseDigitRun (s : List Char) : Option (Nat × List Char) :=
  let ds := s.takeWhile Char.isDigit
  if ds.isEmpty then none else some (parseDigits ds, s.dropWhile Char.isDigit)

/-- Sign-and-digits stage of formatted int extraction, applied after
whitespace has been skipped: an optional single sign followed by a
non-empty digit run; fails when no digit follows. -/
def extractSigned : List Char → Option (Int × List Char)
  | [] => none
  | c :: rest =>
    if c = '-' then (parseDigitRun rest).map (fun p => (-(p.1 : Int), p.2))
    else if c = '+' then (parseDigitRun rest).map (fun p => ((p.1 : Int), p.2))
    else (parseDigitRun (c :: rest)).map (fun p => ((p.1 : Int), p.2))

/-- Formatted extraction of an int from a character stream, embedding
the behaviour of the C++ expression `stream >> intVar` (num_get):
skip whitespace, read an optional sign, then a non-empty digit run;
extraction fails when no digit follows.  Overflow is not modelled
(the inputs exercised by the claims stay far below INT_MAX). -/
def extractInt (s : List Char) : Option (Int × List Char) :=
  extractSigned (s.dropWhile isWs)

/-- Dropping a while-prefix never lengthens a list; stated as a
definition because it feeds termination arguments of loops below. -/
def length_dropWhile_le' : ∀ (p : Char → Bool) (l : List Char),
    (l.dropWhile p).length ≤ l.length := by
  intro p l
  have hc := congrArg List.length (List.takeWhile_append_dropWhile p l)
  simp only [List.length_append] at hc
  omega

/-- Consuming a digit run strictly shrinks the stream. -/
def parseDigitRun_lt : ∀ (u : List Char) (n : Nat) (t : List Char),
    parseDigitRun u = some (n, t) → t.length < u.length := by
  intro u n t hu
  unfold parseDigitRun at hu
  by_cases he : (u.takeWhile Char.isDigit).isEmpty
  · simp [he] at hu
  · simp [he] at hu
    have hsum : (u.takeWhile Char.isDigit).length + (u.dropWhile Char.isDigit).length
        = u.length := by
      have hc := congrArg List.length
        (List.takeWhile_append_dropWhile Char.isDigit u)
      simp only [List.length_append] at hc
      omega
    have hne : (u.takeWhile Char.isDigit).length ≠ 0 := by
      simpa [List.length_eq_zero, List.isEmpty_iff] using he
    obtain ⟨-, ht⟩ := hu
    subst ht
    omega

/-- Successful sign-and-digits extraction strictly shrinks the stream. -/
def extractSigned_lt : ∀ (u : List Char) (v : Int) (t : List Char),
    extractSigned u = some (v, t) → t.length < u.length := by
  intro u v t h
  cases u with
  | nil => simp [extractSigned] at h
  | cons c rest =>
    simp only [extractSigned] at h
    by_cases hc : c = '-'
    · rw [if_pos hc] at h
      obtain ⟨⟨n, t'⟩, hu, hfb⟩ := Option.map_eq_some'.mp h
      cases hfb
      have := parseDigitRun_lt rest n t' hu
      simp only [List.length_cons]
      omega
    · by_cases hc2 : c = '+'
      · rw [if_neg hc, if_pos hc2] at h
        obtain ⟨⟨n, t'⟩, hu, hfb⟩ := Option.map_eq_some'.mp h
        cases hfb
        have := parseDigitRun_lt rest n t' hu
        simp only [List.length_cons]
        omega
      · rw [if_neg hc, if_neg hc2] at h
        obtain ⟨⟨n, t'⟩, hu, hfb⟩ := Option.map_eq_some'.mp h
        cases hfb
        exact parseDigitRun_lt (c :: rest) n t' hu

/-- Successful formatted extraction strictly shrinks the stream. -/
def extractInt_lt : ∀ (s : List Char) (v : Int) (t : List Char),
    extractInt s = some (v, t) → t.length < s.length := by
  intro s v t h
  have h2 := extractSigned_lt (s.dropWhile isWs) v t h
  have h3 := length_dropWhile_le' isWs s
  omega

/-- Attribute-loading loop shared by the wrappers
(build_wrapper.cpp lines 132-148, search_wrapper.cpp lines 187-191,
index_construction_and_query_execution.cpp lines 175-179):

  while (attr_file >> keys[count] >> values[count]) \x7b count++; if (count > baseNum) break; \x7d

Returns the final value of count together with the key/value pairs
successfully extracted, in order.  The loop stops when an extraction
fails or when count exceeds baseNum (build_wrapper exits with an error
at that point; search_wrapper breaks and fails the subsequent
count != baseNum check — observationally the same count). -/
def loadAttrsF : Nat → List Char → Nat → Nat → Nat × List (Int × Int)
  | 0, _, count, _ => (count, [])
  | fuel + 1, s, count, B =>
    match extractInt s with
    | none => (count, [])
    | some (k, s1) =>
      match extractInt s1 with
      | none => (count, [])
      | some (v, s2) =>
        if count + 1 > B then (count + 1, [(k, v)])
        else
          let r := loadAttrsF fuel s2 (count + 1) B
          (r.1, (k, v) :: r.2)

/-- Entry point of the attribute-loading loop: count starts at 0.  The
fuel argument only bounds the recursion depth; each loop iteration
consumes at least two stream characters, so length + 1 iterations can
never be reached and the fuel-exhausted branch is dead code. -/
def loadAttrs (s : List Char) (B : Nat) : Nat × List (Int × Int) :=
  loadAttrsF (s.length + 1) s 0 B

/-- Indices of the keys array written by the attribute-loading loop:
the condition `attr_file >> keys[count] >> values[count]` stores into
keys[count] whenever the first extraction succeeds, before the
count > baseNum bound check runs.  (Since C++11 a failed extraction
also stores 0 into its target; only stores from successful extractions
are recorded here, which already suffices to exhibit the overrun.) -/
def attrKeyWritesF : Nat → List Char → Nat → Nat → List Nat
  | 0, _, _, _ => []
  | fuel + 1, s, count, B =>
    match extractInt s with
    | none => []
    | some (_, s1) =>
      match extractInt s1 with
      | none => [count]
      | some (_, s2) =>
        if count + 1 > B then [count]
        else count :: attrKeyWritesF fuel s2 (count + 1) B

/-- Key-array write trace of the attribute loop, starting at count 0;
the fuel bound is dead code exactly as in loadAttrs. -/
def attrKeyWrites (s : List Char) (B : Nat) : List Nat :=
  attrKeyWritesF (s.length + 1) s 0 B

/-- Little-endian two's-complement decoding of four bytes into an int,
as produced by file.read((char*)&d, sizeof(int)) on the benchmark
platform (little-endian, 32-bit int). -/
def decodeI32 (b0 b1 b2 b3 : Nat) : Int :=
  let u : Nat := b0 + 256 * b1 + 65536 * b2 + 16777216 * b3
  if u < 2147483648 then (u : Int) else (u : Int) - 4294967296

/-- Little-endian encoding of a non-negative int below 2^31 into four
bytes. -/
def encodeI32 (n : Nat) : List Nat :=
  [n % 256, n / 256 % 256, n / 65536 % 256, n / 16777216 % 256]

/-- Reads the leading 4 bytes of a byte stream as a little-endian int;
none when fewer than 4 bytes remain (the C++ read fails). -/
def readI32 : List Nat → Option Int
  | b0 :: b1 :: b2 :: b3 :: _ => some (decodeI32 b0 b1 b2 b3)
  | _ => none

/-- Loop of read_fvecs/read_ivecs (fanns_survey_helpers.cpp lines
18-34 and 36-62): repeatedly read a 4-byte dimension d, construct a
vector of d elements, and read d*4 payload bytes; stop when either
read fails, silently dropping a trailing partial record.  A negative d
makes std::vector(d) request a size above max_size(), which throws
std::length_error — embedded as the error case.  Payloads are kept as
raw bytes (the float/int interpretation is irrelevant here). -/
def readVecsF : Nat → List Nat → Except Unit (List (Int × List Nat))
  | 0, _ => .ok []
  | fuel + 1, s =>
    if s.length < 4 then .ok []
    else
      match readI32 s with
      | none => .ok []
      | some d =>
        if d < 0 then .error ()
        else
          let need := 4 * d.toNat
          let body := s.drop 4
          if body.length < need then .ok []
          else
            match readVecsF fuel (body.drop need) with
            | .error e => .error e
            | .ok rest => .ok ((d, body.take need) :: rest)

/-- Record loop on a whole byte stream; every iteration consumes at
least the 4 dimension bytes, so the fuel bound is dead code. -/
def readVecsGo (s : List Nat) : Except Unit (List (Int × List Nat)) :=
  readVecsF (s.length + 1) s

/-- Model of read_fvecs (fanns_survey_helpers.cpp lines 18-34): an
unopenable file (none) yields an empty dataset after printing an
error; otherwise the record loop runs on the byte stream.  The
Except error represents a C++ exception escaping the function. -/
def read_fvecs (file : Option (List Nat)) : Except Unit (List (Int × List Nat)) :=
  match file with
  | none => .ok []
  | some s => readVecsGo s

/-- Model of read_ivecs (fanns_survey_helpers.cpp lines 36-62): the
same record loop as read_fvecs with int payload; payload bytes are
kept raw, so the embedding coincides with read_fvecs. -/
def read_ivecs (file : Option (List Nat)) : Except Unit (List (Int × List Nat)) :=
  match file with
  | none => .ok []
  | some s => readVecsGo s

/-- Model of std::stoi as used on the pieces of a ranges line: skip
whitespace, optional sign, then a non-empty digit run; none embeds the
std::invalid_argument throw.  Trailing characters are ignored. -/
def stoiOpt (l : List Char) : Option Int :=
  (extractInt l).map Prod.fst

/-- Hyphen split performed on a ranges line by the two getline calls
(fanns_survey_helpers.cpp lines 193 and 206): the first getline reads
up to the first hyphen and succeeds on any non-empty line; the second
reads the remainder and fails when nothing follows the hyphen (or no
hyphen exists). -/
def splitHyphen (l : List Char) : Option (List Char × List Char) :=
  match l.dropWhile (fun c => c != '-') with
  | [] => none
  | _ :: [] => none
  | _ :: rest => some (l.takeWhile (fun c => c != '-'), rest)

/-- Main parsing path for one ranges line (fanns_survey_helpers.cpp
lines 204-215): split at the first hyphen (both getlines must
succeed, else Invalid format), then stoi both pieces (else Invalid
integer value).  n is the 1-based line number used in the messages. -/
def parsePairE (l : List Char) (n : Nat) : Except String (Int × Int) :=
  match splitHyphen l with
  | none => .error ("Invalid format at line " ++ toString n)
  | some (a, b) =>
    match stoiOpt a, stoiOpt b with
    | some x, some y => .ok (x, y)
    | _, _ => .error ("Invalid integer value at line " ++ toString n)

/-- Header test applied to the first non-empty line of a ranges file
(fanns_survey_helpers.cpp lines 189-203): the line is skipped as a
header exactly when both getline calls succeed on the hyphen split and
std::stoi throws on at least one of the two pieces. -/
def isHeaderSkip (l : List Char) : Bool :=
  match splitHyphen l with
  | some (a, b) => !((stoiOpt a).isSome && (stoiOpt b).isSome)
  | none => false

/-- Option-valued variant of the main line parse, used to state
well-formedness hypotheses: some exactly when parsePairE succeeds. -/
def parsePairOpt (l : List Char) : Option (Int × Int) :=
  match splitHyphen l with
  | none => none
  | some (a, b) =>
    match stoiOpt a, stoiOpt b with
    | some x, some y => some (x, y)
    | _, _ => none

/-- Line loop of read_two_ints_per_line (fanns_survey_helpers.cpp
lines 131-219), debug prints omitted: n is the 1-based number of the
next line, first tracks whether a non-empty line has been seen yet.
Empty lines are skipped; the first non-empty line is skipped when the
header test fires; every other line goes through the main parse, whose
failure embeds the thrown runtime_error. -/
def readTwoIntsGo : List (List Char) → Nat → Bool → Except String (List (Int × Int))
  | [], _, _ => .ok []
  | l :: ls, n, first =>
    if l.isEmpty then readTwoIntsGo ls (n + 1) first
    else if first && isHeaderSkip l then readTwoIntsGo ls (n + 1) false
    else
      match parsePairE l n with
      | .error e => .error e
      | .ok p =>
        match readTwoIntsGo ls (n + 1) false with
        | .error e => .error e
        | .ok ps => .ok (p :: ps)

/-- Model of read_two_ints_per_line on the list of lines of the ranges
file (the C++ getline loop): line numbers start at 1 and header
detection is armed. -/
def read_two_ints_per_line (lines : List (List Char)) : Except String (List (Int × Int)) :=
  readTwoIntsGo lines 1 true

/-- Line loop of the csv-to-data converter (csv_to_data_converter.cpp
lines 38-61): n is the 1-based number of the next line; the line with
number 1 is skipped unconditionally, empty lines are skipped, every
other line must parse as an integer via stream extraction (trailing
characters ignored) or the program exits with an error. -/
def convGo : List (List Char) → Nat → Except String (List Int)
  | [], _ => .ok []
  | l :: ls, n =>
    if n = 1 then convGo ls (n + 1)
    else if l.isEmpty then convGo ls (n + 1)
    else
      match extractInt l with
      | none => .error ("Invalid integer at line " ++ toString n)
      | some (v, _) =>
        match convGo ls (n + 1) with
        | .error e => .error e
        | .ok vs => .ok (v :: vs)

/-- Model of the convert-attrs value-reading phase: the attribute
values collected from the input CSV lines, or the error that makes the
program exit 1. -/
def convertAttrs (lines : List (List Char)) : Except String (List Int) :=
  convGo lines 1

/-- One output line of convert-attrs (csv_to_data_converter.cpp line
74): the 0-based index, a space, the value, a newline. -/
def attrChunk (i : Nat) (v : Int) : List Char :=
  renderNat i ++ ' ' :: (renderInt v ++ ['\n'])

/-- Output stream of convert-attrs from index i on. -/
def writeDataFrom : Nat → List Int → List Char
  | _, [] => []
  | i, v :: vs => attrChunk i v ++ writeDataFrom (i + 1) vs

/-- Full output stream of convert-attrs for a list of values: lines
"0 v0", "1 v1", ... as written by the output loop. -/
def writeData (vs : List Int) : List Char :=
  writeDataFrom 0 vs

/-- Numeric command-line arguments of build_wrapper
(build_wrapper.cpp lines 39-42); the two path arguments are carried
implicitly by the file record. -/
structure BuildArgs where
  dim : Int
  M : Int
  efc : Int
  threads : Int

/-- Input files of build_wrapper: none embeds a file that fails to
open.  The data file is a byte stream, the attributes file a character
stream. -/
structure BuildFiles where
  data : Option (List Nat)
  attrs : Option (List Char)

/-- Control-flow outcome of build_wrapper's main, one constructor per
return-1 site in lines 64-212 plus the success path.  Constructing the
index (the RangeHNSW constructor lives in the missing TreeHNSW.hpp) is
modelled from the spec as always succeeding, so reaching construction
means reaching exit 0; built records the parameters handed to the
constructor. -/
inductive BuildOutcome where
  | errOpenData
  | errDimMismatch
  | errOpenAttr
  | errTooManyAttrs
  | errAttrMismatch
  | built (dim M efc : Int)
deriving DecidableEq

/-- Process exit status of a build_wrapper outcome. -/
def BuildOutcome.exitCode : BuildOutcome → Nat
  | .built _ _ _ => 0
  | _ => 1

/-- Model of build_wrapper's main (build_wrapper.cpp lines 20-247):
open the data file, read and validate the leading dimension, derive
baseNum from the file size, open the attributes file, run the
attribute loop, validate the count, then construct the index.
load_data (from the missing utils.hpp) is modelled from the spec as
succeeding whenever the file opened.  When the data file holds fewer
than 4 bytes the C++ read leaves file_dim unset; that unreachable-
for-the-claims corner is folded into the dimension-mismatch exit. -/
def buildWrapper (a : BuildArgs) (f : BuildFiles) : BuildOutcome :=
  match f.data with
  | none => .errOpenData
  | some bs =>
    match readI32 bs with
    | none => .errDimMismatch
    | some fileDim =>
      if fileDim ≠ a.dim then .errDimMismatch
      else
        let baseNum : Nat := bs.length / (fileDim.toNat + 1) / 4
        match f.attrs with
        | none => .errOpenAttr
        | some cs =>
          let r := loadAttrs cs baseNum
          if r.1 > baseNum then .errTooManyAttrs
          else if r.1 ≠ baseNum then .errAttrMismatch
          else .built a.dim a.M a.efc

/-- Numeric command-line arguments of search_wrapper
(search_wrapper.cpp lines 44-57). -/
structure SearchArgs where
  dim : Int
  efSearch : Int
  k : Int
  M : Int

/-- Input files of search_wrapper: none embeds a file that fails to
open.  Vector and groundtruth files are byte streams, the attributes
file a character stream, the ranges file a list of lines. -/
structure SearchFiles where
  data : Option (List Nat)
  query : Option (List Nat)
  attrs : Option (List Char)
  ranges : Option (List (List Char))
  gt : Option (List Nat)

/-- Control-flow outcome of search_wrapper's main, one constructor per
return-1 site in lines 59-254 plus the success path.  Index
reconstruction and query execution (RangeHNSW, missing TreeHNSW.hpp)
are modelled from the spec as succeeding, so reaching them means
reaching exit 0; success records the ef_construction handed to the
constructor. -/
inductive SearchOutcome where
  | errParams
  | errOpenData
  | errDimData
  | errOpenQuery
  | errDimQuery
  | errOpenAttr
  | errAttrCount
  | errRanges
  | errRangesCount
  | errGtRead
  | errGtCount
  | success (efc : Int)
deriving DecidableEq

/-- Process exit status of a search_wrapper outcome. -/
def SearchOutcome.exitCode : SearchOutcome → Nat
  | .success _ => 0
  | _ => 1

/-- Model of search_wrapper's main (search_wrapper.cpp lines 22-404):
validate the numeric parameters, load and validate the database and
query vectors, load the attributes and check their count, read the
query ranges (an exception exits 1), read the groundtruth (an
unopenable file yields an empty list without an exception; a thrown
length_error exits 1), check both counts against the query count,
then rebuild the index with ef_construction = max(200, 2 ef_search)
and run the queries.  load_data and RangeHNSW are modelled from the
spec as succeeding; a data or query file of fewer than 4 bytes leaves
file_dim unset in the C++ and is folded into the mismatch exit. -/
def searchWrapper (a : SearchArgs) (f : SearchFiles) : SearchOutcome :=
  if a.dim ≤ 0 ∨ a.efSearch ≤ 0 ∨ a.k ≤ 0 ∨ a.M ≤ 0 then .errParams
  else
    match f.data with
    | none => .errOpenData
    | some bs =>
      match readI32 bs with
      | none => .errDimData
      | some fileDim =>
        if fileDim ≠ a.dim then .errDimData
        else
          let baseNum : Nat := bs.length / (fileDim.toNat + 1) / 4
          match f.query with
          | none => .errOpenQuery
          | some qs =>
            match readI32 qs with
            | none => .errDimQuery
            | some qDim =>
              if qDim ≠ a.dim then .errDimQuery
              else
                let queryNum : Nat := qs.length / (qDim.toNat + 1) / 4
                match f.attrs with
                | none => .errOpenAttr
                | some cs =>
                  if (loadAttrs cs baseNum).1 ≠ baseNum then .errAttrCount
                  else
                    match f.ranges with
                    | none => .errRanges
                    | some ls =>
                      match read_two_ints_per_line ls with
                      | .error _ => .errRanges
                      | .ok rs =>
                        if rs.length ≠ queryNum then .errRangesCount
                        else
                          match read_ivecs f.gt with
                          | .error _ => .errGtRead
                          | .ok gl =>
                            if gl.length ≠ queryNum then .errGtCount
                            else .success (max 200 (a.efSearch * 2))

/-- Order on (internal id, attribute value) pairs: ascending value,
ties broken by id — the attribute order of spec section 3. -/
def valLe (a b : Nat × Int) : Prop :=
  a.2 < b.2 ∨ (a.2 = b.2 ∧ a.1 ≤ b.1)

instance : DecidableRel valLe := fun a b => by
  unfold valLe; infer_instance

instance : IsTotal (Nat × Int) valLe where
  total := by
    intro a b
    rcases lt_trichotomy a.2 b.2 with h | h | h
    · exact Or.inl (Or.inl h)
    · rcases Nat.le_total a.1 b.1 with h2 | h2
      · exact Or.inl (Or.inr ⟨h, h2⟩)
      · exact Or.inr (Or.inr ⟨h.symm, h2⟩)
    · exact Or.inr (Or.inl h)

instance : IsTrans (Nat × Int) valLe where
  trans := by
    intro a b c hab hbc
    rcases hab with h1 | ⟨h1, h1'⟩ <;> rcases hbc with h2 | ⟨h2, h2'⟩
    · exact Or.inl (lt_trans h1 h2)
    · exact Or.inl (h2 ▸ h1)
    · exact Or.inl (h1 ▸ h2)
    · exact Or.inr ⟨h1.trans h2, le_trans h1' h2'⟩

/-- Order on (distance, id) result pairs: ascending distance, ties
broken by smaller id — the deterministic merge order of spec
section 4.5. -/
def distLe (a b : ℚ × Nat) : Prop :=
  a.1 < b.1 ∨ (a.1 = b.1 ∧ a.2 ≤ b.2)

instance : DecidableRel distLe := fun a b => by
  unfold distLe; infer_instance

instance : IsTotal (ℚ × Nat) distLe where
  total := by
    intro a b
    rcases lt_trichotomy a.1 b.1 with h | h | h
    · exact Or.inl (Or.inl h)
    · rcases Nat.le_total a.2 b.2 with h2 | h2
      · exact Or.inl (Or.inr ⟨h, h2⟩)
      · exact Or.inr (Or.inr ⟨h.symm, h2⟩)
    · exact Or.inr (Or.inl h)

instance : IsTrans (ℚ × Nat) distLe where
  trans := by
    intro a b c hab hbc
    rcases hab with h1 | ⟨h1, h1'⟩ <;> rcases hbc with h2 | ⟨h2, h2'⟩
    · exact Or.inl (lt_trans h1 h2)
    · exact Or.inl (h2 ▸ h1)
    · exact Or.inl (h1 ▸ h2)
    · exact Or.inr ⟨h1.trans h2, le_trans h1' h2'⟩

/-- Modelled from the spec: the (id, value) pairs of the attribute
index, internal ids being load-order indices (spec section 3); the
value of id i is values[i]. -/
def pairsOf (values : List Int) : List (Nat × Int) :=
  (List.range values.length).map (fun i => (i, values.getD i 0))

/-- Modelled from the spec: the attribute order — a stable sort of the
(id, value) pairs by value ascending, ties by id (spec sections 3 and
4.2; AttributeIndex lives in the missing TreeHNSW.hpp). -/
def sortedPairs (values : List Int) : List (Nat × Int) :=
  List.insertionSort valLe (pairsOf values)

/-- Modelled from the spec: sorted position of the lower bound of L in
the attribute order (binary search, spec section 4.4) — the number of
sorted pairs with value strictly below L. -/
def lowerPos (s : List (Nat × Int)) (L : Int) : Nat :=
  (s.takeWhile (fun p => decide (p.2 < L))).length

/-- Modelled from the spec: sorted position of the upper bound of R in
the attribute order — the number of sorted pairs with value at most
R. -/
def upperPos (s : List (Nat × Int)) (R : Int) : Nat :=
  (s.takeWhile (fun p => decide (p.2 ≤ R))).length

/-- Modelled from the spec: the minimal segment-tree cover of the
sorted-position interval [pL, pR) inside the node [lo, hi) (spec
section 4.4): a node entirely inside the query interval is emitted,
a disjoint node contributes nothing, otherwise the node splits at
mid = (lo + hi) / 2.  A singleton node is always inside or disjoint,
so the guard before the split is unreachable and only serves
termination. -/
def coverNodesF : Nat → Nat → Nat → Nat → Nat → List (Nat × Nat)
  | 0, _, _, _, _ => []
  | fuel + 1, pL, pR, lo, hi =>
    if pR ≤ lo ∨ hi ≤ pL ∨ hi ≤ lo then []
    else if pL ≤ lo ∧ hi ≤ pR then [(lo, hi)]
    else coverNodesF fuel pL pR lo ((lo + hi) / 2) ++
      coverNodesF fuel pL pR ((lo + hi) / 2) hi

/-- Segment-tree cover entry point: a node of size n splits into
strictly smaller children, so recursion depth is below n and fuel
n = hi - lo is never exhausted (a singleton node is always inside or
disjoint and never splits). -/
def coverNodes (pL pR lo hi : Nat) : List (Nat × Nat) :=
  coverNodesF (hi - lo) pL pR lo hi

/-- Modelled from the spec: the element set of a tree node — the
contiguous block of the attribute order between sorted positions lo
and hi (spec section 3, Range Tree Node). -/
def nodeSlice (s : List (Nat × Int)) (lo hi : Nat) : List (Nat × Int) :=
  (s.drop lo).take (hi - lo)

/-- Modelled from the spec: HNSW search over one tree node's graph
with candidate-list size ef (spec sections 4.3 and 4.5, step 4):
returns up to ef (distance, id) pairs drawn from the node's element
set.  The graph search is embedded as exact best-ef selection — every
property proved below uses only that results come from the node's
elements, which any HNSW search over that graph satisfies.  dist is
the query's distance function (vector store distance_to of spec
section 4.1, abstracted over the query vector). -/
def searchNode (dist : Nat → ℚ) (s : List (Nat × Int)) (lo hi ef : Nat) : List (ℚ × Nat) :=
  (List.insertionSort distLe ((nodeSlice s lo hi).map (fun p => (dist p.1, p.1)))).take ef

/-- Modelled from the spec: RangeHNSW::queryRange (spec section 4.5;
the implementation lives in the missing TreeHNSW.hpp): validate
L ≤ R, translate [L, R] to a sorted-position interval, enumerate the
minimal cover, search each cover node with ef, merge and keep the k
best by (distance, id). -/
def queryRange (values : List Int) (dist : Nat → ℚ) (L R : Int) (k ef : Nat) :
    List (ℚ × Nat) :=
  if R < L then []
  else
    let s := sortedPairs values
    let pL := lowerPos s L
    let pR := upperPos s R
    let cands := (coverNodes pL pR 0 values.length).flatMap
      (fun nd => searchNode dist s nd.1 nd.2 ef)
    (List.insertionSort distLe cands).take k

/-- Encoding of one complete .fvecs/.ivecs record: the 4-byte
little-endian dimension followed by the payload bytes. -/
def encodeRec (r : Nat × List Nat) : List Nat :=
  encodeI32 r.1 ++ r.2

/-- Encoding of a sequence of complete records. -/
def encodeRecs : List (Nat × List Nat) → List Nat
  | [] => []
  | r :: rs => encodeRec r ++ encodeRecs rs

/-- Key/value pairs the attribute loop recovers from a convert-attrs
output that starts at index i: keys are consecutive indices, values
the converted list. -/
def attrPairsFrom : Nat → List Int → List (Int × Int)
  | _, [] => []
  | i, v :: vs => ((i : Int), v) :: attrPairsFrom (i + 1) vs

/-- All lines parsed by the main ranges-line path, in order; none when
any line fails. -/
def parseAllPairs : List (List Char) → Option (List (Int × Int))
  | [] => some []
  | l :: ls =>
    match parsePairOpt l, parseAllPairs ls with
    | some p, some ps => some (p :: ps)
    | _, _ => none

/-- Taking the length of a while-prefix recovers that prefix. -/
theorem take_length_takeWhile {α : Type} (p : α → Bool) (l : List α) :
    l.take (l.takeWhile p).length = l.takeWhile p := by
  induction l with
  | nil => rfl
  | cons a t ih =>
    by_cases h : p a
    · simp [List.takeWhile_cons, h, ih]
    · simp [List.takeWhile_cons, h]

/-- Dropping the length of a while-prefix leaves the while-suffix. -/
theorem drop_length_takeWhile {α : Type} (p : α → Bool) (l : List α) :
    l.drop (l.takeWhile p).length = l.dropWhile p := by
  induction l with
  | nil => rfl
  | cons a t ih =>
    by_cases h : p a
    · simp [List.takeWhile_cons, List.dropWhile_cons, h, ih]
    · simp [List.takeWhile_cons, List.dropWhile_cons, h]

/-- In a value-sorted pair list, every element surviving the
strictly-below-L prefix has value at least L. -/
theorem le_of_mem_dropWhile_lt {L : Int} {l : List (Nat × Int)}
    (hs : List.Sorted valLe l) {x : Nat × Int}
    (hx : x ∈ l.dropWhile (fun p => decide (p.2 < L))) : L ≤ x.2 := by
  induction l with
  | nil => simp at hx
  | cons a t ih =>
    rw [List.dropWhile_cons] at hx
    by_cases h : a.2 < L
    · simp [h] at hx
      exact ih hs.of_cons hx
    · simp [h] at hx
      rcases hx with rfl | hx2
      · exact le_of_not_lt h
      · have hle := (List.sorted_cons.mp hs).1 x hx2
        have hax : a.2 ≤ x.2 := by
          rcases hle with h1 | ⟨h1, -⟩
          · exact le_of_lt h1
          · exact le_of_eq h1
        exact le_trans (le_of_not_lt h) hax

/-- Every node emitted by the segment-tree cover lies inside the
query position interval and is non-degenerate. -/
theorem coverNodesF_sound (pL pR : Nat) :
    ∀ (fuel lo hi : Nat), ∀ nd ∈ coverNodesF fuel pL pR lo hi,
      pL ≤ nd.1 ∧ nd.2 ≤ pR ∧ nd.1 < nd.2 := by
  intro fuel
  induction fuel with
  | zero => intro lo hi nd hnd; simp [coverNodesF] at hnd
  | succ f ih =>
    intro lo hi nd hnd
    rw [coverNodesF] at hnd
    split at hnd
    · simp at hnd
    · rename_i hndis
      split at hnd
      · rename_i hin
        simp only [List.mem_singleton] at hnd
        subst hnd
        exact ⟨hin.1, hin.2, by omega⟩
      · rcases List.mem_append.mp hnd with h | h
        · exact ih lo ((lo + hi) / 2) nd h
        · exact ih ((lo + hi) / 2) hi nd h

/-- Cover soundness at the entry point. -/
theorem coverNodes_sound (pL pR lo hi : Nat) :
    ∀ nd ∈ coverNodes pL pR lo hi, pL ≤ nd.1 ∧ nd.2 ≤ pR ∧ nd.1 < nd.2 :=
  coverNodesF_sound pL pR (hi - lo) lo hi

/-- Membership in a node slice whose bounds lie inside [pL, pR) forces
the element's value into [L, R]: the lower bound comes from dropping
the strictly-below-L prefix, the upper bound from staying inside the
at-most-R prefix of the sorted list. -/
theorem nodeSlice_value_bounds {values : List Int} {L R : Int} {lo hi : Nat}
    {x : Nat × Int} (hlh : lo ≤ hi)
    (hlo : lowerPos (sortedPairs values) L ≤ lo)
    (hhi : hi ≤ upperPos (sortedPairs values) R)
    (hx : x ∈ nodeSlice (sortedPairs values) lo hi) :
    L ≤ x.2 ∧ x.2 ≤ R := by
  set s := sortedPairs values with hsdef
  have hsorted : List.Sorted valLe s := List.sorted_insertionSort valLe (pairsOf values)
  constructor
  · have h1 : x ∈ s.drop lo := List.take_subset _ _ hx
    have h2 : s.drop lo = List.drop (lo - lowerPos s L) (s.drop (lowerPos s L)) := by
      rw [List.drop_drop]
      congr 1
      omega
    have h3 : x ∈ s.drop (lowerPos s L) := by
      rw [h2] at h1
      exact List.drop_subset _ _ h1
    rw [lowerPos, drop_length_takeWhile] at h3
    exact le_of_mem_dropWhile_lt hsorted h3
  · have h1 : x ∈ List.drop lo (s.take hi) := by
      rw [nodeSlice, List.take_drop] at hx
      have harith : lo + (hi - lo) = hi := by omega
      rwa [harith] at hx
    have h2 : x ∈ s.take hi := List.drop_subset _ _ h1
    have h3 : x ∈ s.take (upperPos s R) := by
      have hins : s.take hi = List.take hi (s.take (upperPos s R)) := by
        rw [List.take_take, Nat.min_eq_left hhi]
      rw [hins] at h2
      exact List.take_subset _ _ h2
    rw [upperPos, take_length_takeWhile] at h3
    exact of_decide_eq_true
      (@List.mem_takeWhile_imp (Nat × Int) (fun q => decide (q.2 ≤ R)) s x h3)

/-- Every pair of the sorted attribute order is an (id, values[id])
pair with id below the number of vectors. -/
theorem mem_sortedPairs {values : List Int} {x : Nat × Int}
    (hx : x ∈ sortedPairs values) :
    x.1 < values.length ∧ x.2 = values.getD x.1 0 := by
  rw [sortedPairs, List.mem_insertionSort, pairsOf, List.mem_map] at hx
  obtain ⟨i, hi, rfl⟩ := hx
  exact ⟨List.mem_range.mp hi, rfl⟩

/-- C1.  For every query (q, L, R, k) executed through queryRange,
every returned ID r satisfies L ≤ attribute(r) ≤ R: any (distance, id)
pair in the result list comes from a cover node whose slice of the
attribute order lies between the lower bound of L and the upper bound
of R. -/
theorem C1_queryRange_respects_range (values : List Int) (dist : Nat → ℚ)
    (L R : Int) (k ef : Nat) (d : ℚ) (r : Nat)
    (h : (d, r) ∈ queryRange values dist L R k ef) :
    L ≤ values.getD r 0 ∧ values.getD r 0 ≤ R := by
  rw [queryRange] at h
  split at h
  · simp at h
  · have h1 : (d, r) ∈ (coverNodes (lowerPos (sortedPairs values) L)
        (upperPos (sortedPairs values) R) 0 values.length).flatMap
        (fun nd => searchNode dist (sortedPairs values) nd.1 nd.2 ef) := by
      have := List.take_subset k _ h
      rwa [List.mem_insertionSort] at this
    rw [List.mem_flatMap] at h1
    obtain ⟨nd, hnd, hmem⟩ := h1
    obtain ⟨hpL, hpR, hlt⟩ :=
      coverNodes_sound _ _ 0 values.length nd hnd
    rw [searchNode] at hmem
    have h2 : (d, r) ∈ (nodeSlice (sortedPairs values) nd.1 nd.2).map
        (fun p => (dist p.1, p.1)) := by
      have := List.take_subset ef _ hmem
      rwa [List.mem_insertionSort] at this
    rw [List.mem_map] at h2
    obtain ⟨p, hp, hpr⟩ := h2
    have hr : p.1 = r := congrArg Prod.snd hpr
    have hbounds := nodeSlice_value_bounds (le_of_lt hlt) hpL hpR hp
    have hps : p ∈ sortedPairs values :=
      List.drop_subset _ _ (List.take_subset _ _ hp)
    have hval := mem_sortedPairs hps
    rw [← hr, ← hval.2]
    exact hbounds

/-- Witness for C1: the literal trivial scenario of spec section 8
(attributes 10, 20, 30, 40, query interval [15, 35], k = 1) returns
id 1, whose attribute 20 lies in the interval. -/
theorem C1_queryRange_respects_range_witness :
    ((1 : ℚ), 1) ∈ queryRange [10, 20, 30, 40] (fun i => (i : ℚ)) 15 35 1 10 ∧
      (15 : Int) ≤ ([10, 20, 30, 40] : List Int).getD 1 0 ∧
      ([10, 20, 30, 40] : List Int).getD 1 0 ≤ 35 :=
  ⟨by decide,
    C1_queryRange_respects_range [10, 20, 30, 40] (fun i => (i : ℚ)) 15 35 1 10 1 1
      (by decide)⟩

/-- A failed first extraction makes the attribute loop load nothing. -/
theorem loadAttrs_none {s : List Char} (h : extractInt s = none) (B : Nat) :
    loadAttrs s B = (0, []) := by
  rw [loadAttrs, loadAttrsF, h]

/-- C2 counterexample.  The claim says a wrapper skips a non-integer
header line of the attributes file and loads the N pairs; in fact the
build wrapper's extraction loop stops dead at the header token, loads
zero pairs, and exits with the attribute-count error (data file: one
vector of dimension 3, so N = 1; attributes file content
"id value\n0 7\n"). -/
theorem C2_counterexample :
    buildWrapper ⟨3, 8, 200, 1⟩
      ⟨some ([3, 0, 0, 0] ++ [1, 2, 3, 4, 5, 6, 7, 8, 9, 10, 11, 12]),
        some ("id value\n0 7\n".data)⟩ = .errAttrMismatch := by
  decide

/-- C2 (amended).  No wrapper performs header detection on the
attributes file: when the file begins with a token that is not an
integer, the very first formatted extraction fails, zero pairs are
loaded, and the wrapper exits with an attribute-count error instead of
loading the N pairs (stated for the build wrapper and the search
wrapper; the combined wrapper's loop is identical to the search
wrapper's). -/
theorem C2_no_attr_header_detection (a : BuildArgs) (sa : SearchArgs)
    (bs qs : List Nat) (cs : List Char) (rf : List (List Char))
    (gt : Option (List Nat)) :
    (extractInt cs = none → readI32 bs = some a.dim →
      bs.length / (a.dim.toNat + 1) / 4 ≠ 0 →
      buildWrapper a ⟨some bs, some cs⟩ = .errAttrMismatch) ∧
    (extractInt cs = none →
      ¬(sa.dim ≤ 0 ∨ sa.efSearch ≤ 0 ∨ sa.k ≤ 0 ∨ sa.M ≤ 0) →
      readI32 bs = some sa.dim → readI32 qs = some sa.dim →
      bs.length / (sa.dim.toNat + 1) / 4 ≠ 0 →
      searchWrapper sa ⟨some bs, some qs, some cs, some rf, gt⟩ = .errAttrCount) := by
  constructor
  · intro h1 h2 h3
    simp only [buildWrapper, h2, loadAttrs_none h1]
    simp [h3]
    omega
  · intro h1 hp h2 h4 h3
    simp only [searchWrapper, h2, h4, loadAttrs_none h1]
    simp [hp, h3]
    omega

/-- Witness for C2 (amended): the concrete header file of the
counterexample run through both wrappers. -/
theorem C2_no_attr_header_detection_witness :
    buildWrapper ⟨3, 8, 200, 1⟩
      ⟨some ([3, 0, 0, 0] ++ [1, 2, 3, 4, 5, 6, 7, 8, 9, 10, 11, 12]),
        some ("id 9\n1 7\n".data)⟩ = .errAttrMismatch ∧
    searchWrapper ⟨3, 10, 5, 8⟩
      ⟨some ([3, 0, 0, 0] ++ [1, 2, 3, 4, 5, 6, 7, 8, 9, 10, 11, 12]),
        some [3, 0, 0, 0], some ("id 9\n1 7\n".data), some [], none⟩ = .errAttrCount :=
  ⟨(C2_no_attr_header_detection ⟨3, 8, 200, 1⟩ ⟨3, 10, 5, 8⟩
      ([3, 0, 0, 0] ++ [1, 2, 3, 4, 5, 6, 7, 8, 9, 10, 11, 12]) [3, 0, 0, 0]
      ("id 9\n1 7\n".data) [] none).1 (by decide) (by decide) (by decide),
   (C2_no_attr_header_detection ⟨3, 8, 200, 1⟩ ⟨3, 10, 5, 8⟩
      ([3, 0, 0, 0] ++ [1, 2, 3, 4, 5, 6, 7, 8, 9, 10, 11, 12]) [3, 0, 0, 0]
      ("id 9\n1 7\n".data) [] none).2 (by decide) (by decide) (by decide)
      (by decide) (by decide)⟩

/-- C3 counterexample.  The claim says read_two_ints_per_line skips
the first line whenever it is a non-integer header; on the hyphenless
header "range" the second getline of the header test fails, the test
does not fire, the main parse also fails to split, and the function
throws Invalid format instead of skipping. -/
theorem C3_counterexample :
    read_two_ints_per_line ["range".data, "1-2".data] =
      .error "Invalid format at line 1" := rfl

/-- A successful option-level line parse agrees with the throwing
parse at every line number. -/
theorem parsePairE_of_opt {l : List Char} {p : Int × Int}
    (h : parsePairOpt l = some p) (n : Nat) : parsePairE l n = .ok p := by
  unfold parsePairOpt at h
  unfold parsePairE
  rcases hs : splitHyphen l with - | ⟨a, b⟩ <;> simp only [hs] at h ⊢
  · cases h
  · rcases ha : stoiOpt a with - | x <;> rcases hb : stoiOpt b with - | y <;>
      simp only [ha, hb] at h ⊢
    · cases h
    · cases h
    · cases h
    · cases h
      rfl

/-- The parse loop with header detection disarmed returns exactly the
line parses, in file order, on files of non-empty parseable lines. -/
theorem readTwoIntsGo_ok : ∀ (ls : List (List Char)) (n : Nat) (ps : List (Int × Int)),
    (∀ l ∈ ls, l.isEmpty = false) → parseAllPairs ls = some ps →
    readTwoIntsGo ls n false = .ok ps := by
  intro ls
  induction ls with
  | nil =>
    intro n ps hne hps
    cases hps
    rfl
  | cons l t ih =>
    intro n ps hne hps
    rw [parseAllPairs] at hps
    rcases hl : parsePairOpt l with - | p <;> rw [hl] at hps
    · cases hps
    · rcases ht : parseAllPairs t with - | ps' <;> rw [ht] at hps
      · cases hps
      · cases hps
        rw [readTwoIntsGo, hne l (List.mem_cons_self l t), parsePairE_of_opt hl n,
          ih (n + 1) ps' (fun x hx => hne x (List.mem_cons_of_mem l hx)) ht]
        rfl

/-- C3 (amended).  read_two_ints_per_line parses every non-empty line
as a hyphen-delimited pair of integers and returns the pairs in file
order; the first non-empty line is skipped as a header exactly when it
both splits at a hyphen with a non-empty right part and has a side on
which std::stoi fails — a hyphenless header line instead raises
Invalid format. -/
theorem C3_header_skip_requires_hyphen (hdr : List Char)
    (lines : List (List Char)) (ps : List (Int × Int))
    (hh1 : hdr.isEmpty = false) (hh2 : isHeaderSkip hdr = true)
    (hne : ∀ l ∈ lines, l.isEmpty = false)
    (hps : parseAllPairs lines = some ps) :
    read_two_ints_per_line (hdr :: lines) = .ok ps := by
  rw [read_two_ints_per_line, readTwoIntsGo, hh1, hh2]
  exact readTwoIntsGo_ok lines 2 ps hne hps

/-- Witness for C3 (amended): a hyphenated header followed by two
pair lines parses to the two pairs. -/
theorem C3_header_skip_requires_hyphen_witness :
    read_two_ints_per_line ["low-high".data, "1-2".data, "3-4".data] =
      .ok [(1, 2), (3, 4)] :=
  C3_header_skip_requires_hyphen ("low-high".data) ["1-2".data, "3-4".data]
    [(1, 2), (3, 4)] (by decide) (by decide) (by decide) (by decide)

/-- C4 counterexample.  The claim says each wrapper rejects
non-positive dim, M, ef, k before constructing an index; the build
wrapper performs no such validation and reaches index construction
with M = 0 (exit status 0). -/
theorem C4_counterexample :
    buildWrapper ⟨3, 0, 10, 1⟩
      ⟨some ([3, 0, 0, 0] ++ [1, 2, 3, 4, 5, 6, 7, 8, 9, 10, 11, 12]),
        some ("0 7\n".data)⟩ = .built 3 0 10 := by
  decide

/-- C4 (amended).  Only the search wrapper validates the numeric
parameters: any invocation with non-positive dim, ef_search, k or M
exits with the Invalid-numeric-parameters error (status 1) before any
file is opened or any index is built; the build and combined wrappers
pass their parameters through unvalidated. -/
theorem C4_search_validates_params (a : SearchArgs) (f : SearchFiles)
    (h : a.dim ≤ 0 ∨ a.efSearch ≤ 0 ∨ a.k ≤ 0 ∨ a.M ≤ 0) :
    searchWrapper a f = .errParams ∧ (searchWrapper a f).exitCode = 1 := by
  rw [searchWrapper, if_pos h]
  exact ⟨rfl, rfl⟩

/-- Witness for C4 (amended): dim = 0 is rejected. -/
theorem C4_search_validates_params_witness :
    searchWrapper ⟨0, 10, 5, 8⟩ ⟨none, none, none, none, none⟩ = .errParams ∧
      (searchWrapper ⟨0, 10, 5, 8⟩ ⟨none, none, none, none, none⟩).exitCode = 1 :=
  C4_search_validates_params ⟨0, 10, 5, 8⟩ ⟨none, none, none, none, none⟩
    (by decide)

/-- C5 counterexample.  The claim demands a non-zero exit on any
unopenable input file; with a query file that holds a matching header
but zero whole vectors (queryNum = 0), an unopenable groundtruth file
makes read_ivecs return an empty list, the count check 0 = 0 passes,
and the wrapper runs to exit 0. -/
theorem C5_counterexample :
    (searchWrapper ⟨3, 10, 5, 8⟩
      ⟨some ([3, 0, 0, 0] ++ [1, 2, 3, 4, 5, 6, 7, 8, 9, 10, 11, 12]),
        some [3, 0, 0, 0], some ("0 7\n".data), some [], none⟩).exitCode = 0 := by
  decide

/-- C5 (amended).  Each wrapper exits 0 when every input loads and
validates, and exits non-zero on a dimension mismatch, an attribute
count differing from the vector count, or an unopenable data, query,
attributes or ranges file; an unopenable groundtruth file only
matters through the count check, so it is caught exactly when the
query count is non-zero.  Stated for the search wrapper (conjuncts
1-8: success, then unopenable data / query / attributes / ranges
files, dimension mismatch, attribute count mismatch, missing
groundtruth with a non-zero query count) and the build wrapper
(conjuncts 9-13: success, then unopenable data / attributes files,
dimension mismatch, attribute count mismatch). -/
theorem C5_exit_codes (a : SearchArgs) (b : BuildArgs) (bs qs gs : List Nat)
    (cs : List Char) (rf : List (List Char)) (rl : List (Int × Int))
    (gl : List (Int × List Nat)) (fd : Int) (oq og : Option (List Nat))
    (oc : Option (List Char)) (orf : Option (List (List Char))) :
    (¬(a.dim ≤ 0 ∨ a.efSearch ≤ 0 ∨ a.k ≤ 0 ∨ a.M ≤ 0) →
      readI32 bs = some a.dim → readI32 qs = some a.dim →
      (loadAttrs cs (bs.length / (a.dim.toNat + 1) / 4)).1 =
        bs.length / (a.dim.toNat + 1) / 4 →
      read_two_ints_per_line rf = .ok rl →
      rl.length = qs.length / (a.dim.toNat + 1) / 4 →
      read_ivecs (some gs) = .ok gl →
      gl.length = qs.length / (a.dim.toNat + 1) / 4 →
      (searchWrapper a ⟨some bs, some qs, some cs, some rf, some gs⟩).exitCode = 0) ∧
    (¬(a.dim ≤ 0 ∨ a.efSearch ≤ 0 ∨ a.k ≤ 0 ∨ a.M ≤ 0) →
      (searchWrapper a ⟨none, oq, oc, orf, og⟩).exitCode = 1) ∧
    (¬(a.dim ≤ 0 ∨ a.efSearch ≤ 0 ∨ a.k ≤ 0 ∨ a.M ≤ 0) →
      readI32 bs = some a.dim →
      (searchWrapper a ⟨some bs, none, oc, orf, og⟩).exitCode = 1) ∧
    (¬(a.dim ≤ 0 ∨ a.efSearch ≤ 0 ∨ a.k ≤ 0 ∨ a.M ≤ 0) →
      readI32 bs = some a.dim → readI32 qs = some a.dim →
      (searchWrapper a ⟨some bs, some qs, none, orf, og⟩).exitCode = 1) ∧
    (¬(a.dim ≤ 0 ∨ a.efSearch ≤ 0 ∨ a.k ≤ 0 ∨ a.M ≤ 0) →
      readI32 bs = some a.dim → readI32 qs = some a.dim →
      (loadAttrs cs (bs.length / (a.dim.toNat + 1) / 4)).1 =
        bs.length / (a.dim.toNat + 1) / 4 →
      (searchWrapper a ⟨some bs, some qs, some cs, none, og⟩).exitCode = 1) ∧
    (¬(a.dim ≤ 0 ∨ a.efSearch ≤ 0 ∨ a.k ≤ 0 ∨ a.M ≤ 0) →
      readI32 bs = some fd → fd ≠ a.dim →
      (searchWrapper a ⟨some bs, oq, oc, orf, og⟩).exitCode = 1) ∧
    (¬(a.dim ≤ 0 ∨ a.efSearch ≤ 0 ∨ a.k ≤ 0 ∨ a.M ≤ 0) →
      readI32 bs = some a.dim → readI32 qs = some a.dim →
      (loadAttrs cs (bs.length / (a.dim.toNat + 1) / 4)).1 ≠
        bs.length / (a.dim.toNat + 1) / 4 →
      (searchWrapper a ⟨some bs, some qs, some cs, orf, og⟩).exitCode = 1) ∧
    (¬(a.dim ≤ 0 ∨ a.efSearch ≤ 0 ∨ a.k ≤ 0 ∨ a.M ≤ 0) →
      readI32 bs = some a.dim → readI32 qs = some a.dim →
      (loadAttrs cs (bs.length / (a.dim.toNat + 1) / 4)).1 =
        bs.length / (a.dim.toNat + 1) / 4 →
      read_two_ints_per_line rf = .ok rl →
      rl.length = qs.length / (a.dim.toNat + 1) / 4 →
      qs.length / (a.dim.toNat + 1) / 4 ≠ 0 →
      (searchWrapper a ⟨some bs, some qs, some cs, some rf, none⟩).exitCode = 1) ∧
    (readI32 bs = some b.dim →
      (loadAttrs cs (bs.length / (b.dim.toNat + 1) / 4)).1 =
        bs.length / (b.dim.toNat + 1) / 4 →
      (buildWrapper b ⟨some bs, some cs⟩).exitCode = 0) ∧
    ((buildWrapper b ⟨none, oc⟩).exitCode = 1) ∧
    (readI32 bs = some b.dim →
      (buildWrapper b ⟨some bs, none⟩).exitCode = 1) ∧
    (readI32 bs = some fd → fd ≠ b.dim →
      (buildWrapper b ⟨some bs, some cs⟩).exitCode = 1) ∧
    (readI32 bs = some b.dim →
      (loadAttrs cs (bs.length / (b.dim.toNat + 1) / 4)).1 ≠
        bs.length / (b.dim.toNat + 1) / 4 →
      (buildWrapper b ⟨some bs, some cs⟩).exitCode = 1) := by
  refine ⟨?_, ?_, ?_, ?_, ?_, ?_, ?_, ?_, ?_, ?_, ?_, ?_, ?_⟩
  · intro hp hbs hqs hattr hrf hrlen hgt hglen
    simp only [searchWrapper, hbs, hqs, hrf, hgt]
    simp [hp, hattr, hrlen, hglen, SearchOutcome.exitCode]
  · intro hp
    simp only [searchWrapper]
    simp [hp, SearchOutcome.exitCode]
  · intro hp hbs
    simp only [searchWrapper, hbs]
    simp [hp, SearchOutcome.exitCode]
  · intro hp hbs hqs
    simp only [searchWrapper, hbs, hqs]
    simp [hp, SearchOutcome.exitCode]
  · intro hp hbs hqs hattr
    simp only [searchWrapper, hbs, hqs]
    simp [hp, hattr, SearchOutcome.exitCode]
  · intro hp hbs hne
    simp only [searchWrapper, hbs]
    simp [hp, hne, SearchOutcome.exitCode]
  · intro hp hbs hqs hattr
    simp only [searchWrapper, hbs, hqs]
    simp [hp, hattr, SearchOutcome.exitCode]
  · intro hp hbs hqs hattr hrf hrlen hqn
    simp only [searchWrapper, hbs, hqs, hrf]
    have hgt : read_ivecs (none : Option (List Nat)) =
        .ok ([] : List (Int × List Nat)) := rfl
    simp only [hgt]
    simp [hp, hattr, hrlen, SearchOutcome.exitCode, Ne.symm hqn]
  · intro hbs hattr
    simp only [buildWrapper, hbs]
    simp [hattr, BuildOutcome.exitCode]
  · simp [buildWrapper, BuildOutcome.exitCode]
  · intro hbs
    simp only [buildWrapper, hbs]
    simp [BuildOutcome.exitCode]
  · intro hbs hne
    simp only [buildWrapper, hbs]
    simp [hne, BuildOutcome.exitCode]
  · intro hbs hattr
    simp only [buildWrapper, hbs]
    by_cases hover : (loadAttrs cs (bs.length / (b.dim.toNat + 1) / 4)).1 >
        bs.length / (b.dim.toNat + 1) / 4
    · simp [hover, BuildOutcome.exitCode]
    · simp [hover, hattr, BuildOutcome.exitCode]

/-- Witness for C5 (amended): a complete well-formed single-vector
input set exits 0 through the search wrapper, an unopenable data file
exits 1, and an unopenable ranges file exits 1. -/
theorem C5_exit_codes_witness :
    (searchWrapper ⟨1, 10, 5, 8⟩
      ⟨some [1, 0, 0, 0, 9, 9, 9, 9], some [1, 0, 0, 0, 8, 8, 8, 8],
        some ("0 7\n".data), some ["1-2".data],
        some [1, 0, 0, 0, 0, 0, 0, 0]⟩).exitCode = 0 ∧
    (searchWrapper ⟨1, 10, 5, 8⟩ ⟨none, none, none, none, none⟩).exitCode = 1 ∧
    (searchWrapper ⟨1, 10, 5, 8⟩
      ⟨some [1, 0, 0, 0, 9, 9, 9, 9], some [1, 0, 0, 0, 8, 8, 8, 8],
        some ("0 7\n".data), none, none⟩).exitCode = 1 :=
  ⟨(C5_exit_codes ⟨1, 10, 5, 8⟩ ⟨1, 8, 200, 1⟩ [1, 0, 0, 0, 9, 9, 9, 9]
      [1, 0, 0, 0, 8, 8, 8, 8] [1, 0, 0, 0, 0, 0, 0, 0] ("0 7\n".data)
      ["1-2".data] [(1, 2)] [(1, [0, 0, 0, 0])] 1 none none none none).1
      (by decide) (by decide) (by decide) (by decide) rfl (by decide)
      rfl (by decide),
   (C5_exit_codes ⟨1, 10, 5, 8⟩ ⟨1, 8, 200, 1⟩ [1, 0, 0, 0, 9, 9, 9, 9]
      [1, 0, 0, 0, 8, 8, 8, 8] [1, 0, 0, 0, 0, 0, 0, 0] ("0 7\n".data)
      ["1-2".data] [(1, 2)] [(1, [0, 0, 0, 0])] 1 none none none none).2.1
      (by decide),
   (C5_exit_codes ⟨1, 10, 5, 8⟩ ⟨1, 8, 200, 1⟩ [1, 0, 0, 0, 9, 9, 9, 9]
      [1, 0, 0, 0, 8, 8, 8, 8] [1, 0, 0, 0, 0, 0, 0, 0] ("0 7\n".data)
      ["1-2".data] [(1, 2)] [(1, [0, 0, 0, 0])] 1 none none none
      none).2.2.2.2.1
      (by decide) (by decide) (by decide) (by decide)⟩

/-- C6.  Whenever the search wrapper reaches index reconstruction, the
ef_construction parameter handed to the RangeHNSW constructor is
max(200, 2 * ef_search). -/
theorem C6_rebuild_ef_construction (a : SearchArgs) (f : SearchFiles) (e : Int)
    (h : searchWrapper a f = .success e) : e = max 200 (a.efSearch * 2) := by
  unfold searchWrapper at h
  by_cases hp : a.dim ≤ 0 ∨ a.efSearch ≤ 0 ∨ a.k ≤ 0 ∨ a.M ≤ 0
  · rw [if_pos hp] at h
    cases h
  rw [if_neg hp] at h
  rcases hfd : f.data with - | bs <;> simp only [hfd] at h
  · cases h
  rcases hr : readI32 bs with - | fd <;> simp only [hr] at h
  · cases h
  by_cases hne : fd ≠ a.dim
  · rw [if_pos hne] at h
    cases h
  rw [if_neg hne] at h
  rcases hfq : f.query with - | qs <;> simp only [hfq] at h
  · cases h
  rcases hrq : readI32 qs with - | qd <;> simp only [hrq] at h
  · cases h
  by_cases hneq : qd ≠ a.dim
  · rw [if_pos hneq] at h
    cases h
  rw [if_neg hneq] at h
  rcases hfa : f.attrs with - | cs <;> simp only [hfa] at h
  · cases h
  by_cases hac : (loadAttrs cs (bs.length / (fd.toNat + 1) / 4)).1 ≠
      bs.length / (fd.toNat + 1) / 4
  · rw [if_pos hac] at h
    cases h
  rw [if_neg hac] at h
  rcases hfr : f.ranges with - | ls <;> simp only [hfr] at h
  · cases h
  rcases hrr : read_two_ints_per_line ls with err | rs <;> simp only [hrr] at h
  · cases h
  by_cases hrl : rs.length ≠ qs.length / (qd.toNat + 1) / 4
  · rw [if_pos hrl] at h
    cases h
  rw [if_neg hrl] at h
  rcases hgv : read_ivecs f.gt with gerr | gl <;> simp only [hgv] at h
  · cases h
  by_cases hgl : gl.length ≠ qs.length / (qd.toNat + 1) / 4
  · rw [if_pos hgl] at h
    cases h
  rw [if_neg hgl] at h
  cases h
  rfl

/-- Witness for C6: on the well-formed single-vector inputs with
ef_search = 10, the constructor receives max(200, 20) = 200. -/
theorem C6_rebuild_ef_construction_witness :
    (200 : Int) = max 200 ((10 : Int) * 2) :=
  C6_rebuild_ef_construction ⟨1, 10, 5, 8⟩
    ⟨some [1, 0, 0, 0, 9, 9, 9, 9], some [1, 0, 0, 0, 8, 8, 8, 8],
      some ("0 7\n".data), some ["1-2".data], some [1, 0, 0, 0, 0, 0, 0, 0]⟩
    200 (by decide)

/-- Dropping a while-prefix of elements that all satisfy the predicate
empties the list. -/
theorem dropWhile_all_nil {α : Type} {p : α → Bool} :
    ∀ {l : List α}, (∀ x ∈ l, p x = true) → l.dropWhile p = [] := by
  intro l
  induction l with
  | nil => intro _; rfl
  | cons a t ih =>
    intro h
    rw [List.dropWhile_cons, h a (List.mem_cons_self a t)]
    exact ih (fun x hx => h x (List.mem_cons_of_mem a hx))

/-- A while-drop skips over a prefix of satisfying elements. -/
theorem dropWhile_append_all {α : Type} {p : α → Bool} :
    ∀ {l : List α} (r : List α), (∀ x ∈ l, p x = true) →
      (l ++ r).dropWhile p = r.dropWhile p := by
  intro l
  induction l with
  | nil => intro r _; rfl
  | cons a t ih =>
    intro r h
    rw [List.cons_append, List.dropWhile_cons, h a (List.mem_cons_self a t)]
    exact ih r (fun x hx => h x (List.mem_cons_of_mem a hx))

/-- A while-take swallows a prefix of satisfying elements whole. -/
theorem takeWhile_append_all {α : Type} {p : α → Bool} :
    ∀ {l : List α} (r : List α), (∀ x ∈ l, p x = true) →
      (l ++ r).takeWhile p = l ++ r.takeWhile p := by
  intro l
  induction l with
  | nil => intro r _; rfl
  | cons a t ih =>
    intro r h
    rw [List.cons_append, List.takeWhile_cons, h a (List.mem_cons_self a t),
      ih r (fun x hx => h x (List.mem_cons_of_mem a hx))]
    rfl

/-- Extraction from a purely-whitespace stream fails. -/
theorem extractInt_all_ws {ws : List Char} (h : ∀ x ∈ ws, isWs x = true) :
    extractInt ws = none := by
  rw [extractInt, dropWhile_all_nil h]
  rfl

/-- Extraction ignores leading whitespace. -/
theorem extractInt_ws_append {ws : List Char} (h : ∀ x ∈ ws, isWs x = true)
    (s : List Char) : extractInt (ws ++ s) = extractInt s := by
  rw [extractInt, extractInt, dropWhile_append_all s h]

/-- Digit characters round-trip through their numeric value. -/
theorem charToDigit_digitToChar {d : Nat} (h : d < 10) :
    charToDigit (digitToChar d) = d := by
  interval_cases d <;> decide

/-- Characters produced for digit values are decimal digits. -/
theorem isDigit_digitToChar {d : Nat} (h : d < 10) :
    (digitToChar d).isDigit = true := by
  interval_cases d <;> decide

/-- A decimal digit character is not whitespace. -/
theorem digit_not_ws {c : Char} (h : c.isDigit = true) : isWs c = false := by
  have h1 : c ≠ ' ' := by rintro rfl; exact absurd h (by decide)
  have h2 : c ≠ '\t' := by rintro rfl; exact absurd h (by decide)
  have h3 : c ≠ '\n' := by rintro rfl; exact absurd h (by decide)
  have h4 : c ≠ '\r' := by rintro rfl; exact absurd h (by decide)
  have h5 : c ≠ '\x0b' := by rintro rfl; exact absurd h (by decide)
  have h6 : c ≠ '\x0c' := by rintro rfl; exact absurd h (by decide)
  simp [isWs, h1, h2, h3, h4, h5, h6]

/-- A decimal digit character is not the minus sign. -/
theorem digit_ne_minus {c : Char} (h : c.isDigit = true) : c ≠ '-' := by
  rintro rfl
  exact absurd h (by decide)

/-- A decimal digit character is not the plus sign. -/
theorem digit_ne_plus {c : Char} (h : c.isDigit = true) : c ≠ '+' := by
  rintro rfl
  exact absurd h (by decide)

/-- Folding the digit characters of a most-significant-first digit
list accumulates the positional value. -/
theorem foldl_digits : ∀ (L : List Nat), (∀ d ∈ L, d < 10) → ∀ a : Nat,
    (L.reverse.map digitToChar).foldl (fun acc c => 10 * acc + charToDigit c) a =
      a * 10 ^ L.length + Nat.ofDigits 10 L := by
  intro L
  induction L with
  | nil => intro _ a; simp
  | cons d t ih =>
    intro h a
    rw [List.reverse_cons, List.map_append, List.foldl_append]
    rw [ih (fun x hx => h x (List.mem_cons_of_mem d hx)) a]
    simp only [List.map_cons, List.map_nil, List.foldl_cons, List.foldl_nil,
      charToDigit_digitToChar (h d (List.mem_cons_self d t)),
      Nat.ofDigits_cons, List.length_cons]
    ring

/-- Parsing the rendering of a natural number recovers it. -/
theorem parseDigits_renderNat (n : Nat) : parseDigits (renderNat n) = n := by
  by_cases h : n = 0
  · subst h; decide
  · rw [renderNat, if_neg h, parseDigits]
    have hf := foldl_digits (Nat.digits 10 n)
      (fun d hd => Nat.digits_lt_base (by norm_num) hd) 0
    simpa [Nat.ofDigits_digits] using hf

/-- The rendering of a natural number is non-empty. -/
theorem renderNat_ne_nil (n : Nat) : renderNat n ≠ [] := by
  rw [renderNat]
  by_cases h : n = 0
  · simp [h]
  · rw [if_neg h]
    simp [Nat.digits_ne_nil_iff_ne_zero.mpr h]

/-- Every character of a rendered natural number is a digit. -/
theorem renderNat_all_digit (n : Nat) : ∀ c ∈ renderNat n, c.isDigit = true := by
  intro c hc
  rw [renderNat] at hc
  by_cases h : n = 0
  · simp [h] at hc
    subst hc
    decide
  · rw [if_neg h] at hc
    rw [List.mem_map] at hc
    obtain ⟨d, hd, rfl⟩ := hc
    exact isDigit_digitToChar (Nat.digits_lt_base (by norm_num) (List.mem_reverse.mp hd))

/-- A digit run starting with a rendered natural number and ending at
the first non-digit parses back to that number, leaving the rest. -/
theorem parseDigitRun_render (n : Nat) {c : Char} (hc : c.isDigit = false)
    (rest : List Char) :
    parseDigitRun (renderNat n ++ c :: rest) = some (n, c :: rest) := by
  rw [parseDigitRun]
  have ht : (renderNat n ++ c :: rest).takeWhile Char.isDigit = renderNat n := by
    rw [takeWhile_append_all (c :: rest) (renderNat_all_digit n),
      List.takeWhile_cons, hc]
    simp
  have hd : (renderNat n ++ c :: rest).dropWhile Char.isDigit = c :: rest := by
    rw [dropWhile_append_all (c :: rest) (renderNat_all_digit n),
      List.dropWhile_cons, hc]
    simp
  rw [ht, hd]
  simp [List.isEmpty_iff, renderNat_ne_nil n, parseDigits_renderNat n]

/-- Sign-and-digits extraction of a rendered natural number. -/
theorem extractSigned_render (n : Nat) {c : Char} (hc : c.isDigit = false)
    (rest : List Char) :
    extractSigned (renderNat n ++ c :: rest) = some ((n : Int), c :: rest) := by
  rcases hrn : renderNat n with - | ⟨d, ds⟩
  · exact absurd hrn (renderNat_ne_nil n)
  have hddig : d.isDigit = true := by
    have := renderNat_all_digit n d
    rw [hrn] at this
    exact this (List.mem_cons_self d ds)
  rw [List.cons_append, extractSigned,
    if_neg (digit_ne_minus hddig), if_neg (digit_ne_plus hddig),
    ← List.cons_append, ← hrn, parseDigitRun_render n hc rest]
  rfl

/-- Formatted extraction of a rendered natural number after optional
whitespace: the number is read back and the stream is left at the
first non-digit. -/
theorem extractInt_render_nat {ws : List Char} (hws : ∀ x ∈ ws, isWs x = true)
    (n : Nat) {c : Char} (hc : c.isDigit = false) (rest : List Char) :
    extractInt (ws ++ (renderNat n ++ c :: rest)) = some ((n : Int), c :: rest) := by
  rw [extractInt_ws_append hws, extractInt]
  have hdw : (renderNat n ++ c :: rest).dropWhile isWs = renderNat n ++ c :: rest := by
    rcases hrn : renderNat n with - | ⟨d, ds⟩
    · exact absurd hrn (renderNat_ne_nil n)
    have hddig : d.isDigit = true := by
      have hall := renderNat_all_digit n d
      rw [hrn] at hall
      exact hall (List.mem_cons_self d ds)
    rw [List.cons_append, List.dropWhile_cons, digit_not_ws hddig]
    simp
  rw [hdw]
  exact extractSigned_render n hc rest

/-- Formatted extraction of a rendered integer after optional
whitespace, covering the negative case's minus sign. -/
theorem extractInt_render_int {ws : List Char} (hws : ∀ x ∈ ws, isWs x = true)
    (v : Int) {c : Char} (hc : c.isDigit = false) (rest : List Char) :
    extractInt (ws ++ (renderInt v ++ c :: rest)) = some (v, c :: rest) := by
  by_cases hv : v < 0
  · rw [renderInt, if_pos hv, extractInt_ws_append hws, List.cons_append, extractInt,
      List.dropWhile_cons]
    have hmws : isWs '-' = false := by decide
    rw [hmws]
    simp only [Bool.false_eq_true, if_false, extractSigned, if_pos rfl,
      parseDigitRun_render (-v).toNat hc rest]
    have hcast : ((-v).toNat : Int) = -v := Int.toNat_of_nonneg (by omega)
    simp [hcast]
  · rw [renderInt, if_neg hv]
    have := extractInt_render_nat hws v.toNat hc rest
    rwa [Int.toNat_of_nonneg (by omega)] at this

/-- The attribute loop inverts the convert-attrs writer: starting at
index c with enough budget, it reads back exactly the written
(index, value) pairs.  ws is the whitespace (a newline) left over from
the previous line. -/
theorem loadAttrsF_writeData : ∀ (vs : List Int) (ws : List Char) (c B fuel : Nat),
    (∀ x ∈ ws, isWs x = true) →
    (ws ++ writeDataFrom c vs).length < fuel →
    c + vs.length ≤ B →
    loadAttrsF fuel (ws ++ writeDataFrom c vs) c B = (c + vs.length, attrPairsFrom c vs) := by
  intro vs
  induction vs with
  | nil =>
    intro ws c B fuel hws hlen hB
    rcases fuel with - | f
    · simp at hlen
    rw [writeDataFrom] at hlen ⊢
    rw [List.append_nil] at hlen ⊢
    rw [loadAttrsF, extractInt_all_ws hws]
    simp [attrPairsFrom]
  | cons v vs' ih =>
    intro ws c B fuel hws hlen hB
    rcases fuel with - | f
    · simp at hlen
    have hshape : ws ++ writeDataFrom c (v :: vs') =
        ws ++ (renderNat c ++ ' ' :: (renderInt v ++ '\n' ::
          writeDataFrom (c + 1) vs')) := by
      rw [writeDataFrom, attrChunk]
      simp [List.append_assoc]
    have hx1 : extractInt (ws ++ writeDataFrom c (v :: vs')) =
        some ((c : Int), ' ' :: (renderInt v ++ '\n' :: writeDataFrom (c + 1) vs')) := by
      rw [hshape]
      exact extractInt_render_nat hws c (by decide) _
    have hx2 : extractInt (' ' :: (renderInt v ++ '\n' :: writeDataFrom (c + 1) vs')) =
        some (v, '\n' :: writeDataFrom (c + 1) vs') := by
      have hone := @extractInt_render_int [' '] (by decide) v '\n'
        (by decide) (writeDataFrom (c + 1) vs')
      simpa using hone
    have hlen1 : (' ' :: (renderInt v ++ '\n' :: writeDataFrom (c + 1) vs')).length <
        (ws ++ writeDataFrom c (v :: vs')).length :=
      extractInt_lt _ _ _ hx1
    have hlen2 : ('\n' :: writeDataFrom (c + 1) vs').length <
        (' ' :: (renderInt v ++ '\n' :: writeDataFrom (c + 1) vs')).length :=
      extractInt_lt _ _ _ hx2
    have hrec := ih ['\n'] (c + 1) B f (by decide)
      (by
        have : ('\n' :: writeDataFrom (c + 1) vs').length =
            (['\n'] ++ writeDataFrom (c + 1) vs').length := rfl
        rw [← this]
        omega)
      (by simp at hB ⊢; omega)
    rw [loadAttrsF]
    simp only [hx1, hx2]
    rw [if_neg (by simp only [List.length_cons] at hB; omega)]
    have hrec2 : loadAttrsF f ('\n' :: writeDataFrom (c + 1) vs') (c + 1) B =
        (c + 1 + vs'.length, attrPairsFrom (c + 1) vs') := by
      simpa using hrec
    simp only [hrec2, attrPairsFrom, List.length_cons, Prod.mk.injEq]
    exact ⟨by omega, trivial⟩

/-- C7.  For every input CSV of a header line followed by integer
value lines, convert-attrs emits the file of lines "i value_i" and the
wrappers' attribute loop reads it back as exactly the pairs
(0, v_0) … (n-1, v_(n-1)) with count n = baseNum: the keys are the
consecutive indices and the values are the CSV values in order. -/
theorem C7_convert_roundtrip (hdr : List Char) (lines : List (List Char))
    (vs : List Int) (h : convertAttrs (hdr :: lines) = .ok vs) :
    loadAttrs (writeData vs) vs.length = (vs.length, attrPairsFrom 0 vs) := by
  have hmain := loadAttrsF_writeData vs [] 0 vs.length
    ((writeData vs).length + 1) (by simp) (by simp [writeData]) (by omega)
  simpa [loadAttrs, writeData] using hmain

/-- Witness for C7: the two-value CSV with header converts to
"0 5\n1 -3\n", which loads back as count 2 with pairs
(0, 5), (1, -3). -/
theorem C7_convert_roundtrip_witness :
    loadAttrs (writeData [5, -3]) ([5, -3] : List Int).length =
      (([5, -3] : List Int).length, attrPairsFrom 0 [5, -3]) :=
  C7_convert_roundtrip ("attr".data) ["5".data, "-3".data] [5, -3] rfl

/-- C8.  The loop condition `attr_file >> keys[count] >> values[count]`
stores into keys[count] before the count > baseNum bound check runs:
with baseNum = 1 and an attributes file of two pairs, the keys array
is written at indices 0 and 1, and index 1 is one past the end of the
allocated arrays — the writes are not all below baseNum. -/
theorem C8_attr_write_overrun :
    attrKeyWrites ("0 5\n1 6\n".data) 1 = [0, 1] ∧
      ¬(∀ i ∈ attrKeyWrites ("0 5\n1 6\n".data) 1, i < 1) := by
  constructor
  · decide
  · decide

/-- C9 counterexample.  A 4-byte file whose dimension field decodes to
-1 makes std::vector(d) request a size beyond max_size(), which throws
std::length_error: read_fvecs and read_ivecs are not throw-free. -/
theorem C9_counterexample :
    read_fvecs (some [255, 255, 255, 255]) = .error () ∧
      read_ivecs (some [255, 255, 255, 255]) = .error () :=
  ⟨rfl, rfl⟩

/-- Little-endian encoding occupies exactly four bytes. -/
theorem encodeI32_length (n : Nat) : (encodeI32 n).length = 4 := rfl

/-- Reading back the little-endian encoding of a non-negative int
recovers it. -/
theorem readI32_encode {d : Nat} (hd : d < 2147483648) (rest : List Nat) :
    readI32 (encodeI32 d ++ rest) = some ((d : Int)) := by
  have hshape : encodeI32 d ++ rest =
      d % 256 :: d / 256 % 256 :: d / 65536 % 256 :: d / 16777216 % 256 :: rest := rfl
  rw [hshape]
  simp only [readI32, decodeI32]
  have hu : d % 256 + 256 * (d / 256 % 256) + 65536 * (d / 65536 % 256) +
      16777216 * (d / 16777216 % 256) = d := by omega
  rw [hu, if_pos hd]

/-- The record loop maps a stream of complete records followed by a
truncated remnant to exactly the complete records. -/
theorem readVecsF_encode : ∀ (rs : List (Nat × List Nat)) (tl : List Nat) (fuel : Nat),
    (∀ r ∈ rs, r.1 < 2147483648 ∧ r.2.length = 4 * r.1) →
    (tl.length < 4 ∨
      ∃ d p, tl = encodeI32 d ++ p ∧ d < 2147483648 ∧ p.length < 4 * d) →
    (encodeRecs rs ++ tl).length < fuel →
    readVecsF fuel (encodeRecs rs ++ tl) =
      .ok (rs.map (fun r => ((r.1 : Int), r.2))) := by
  intro rs
  induction rs with
  | nil =>
    intro tl fuel hrec htl hfuel
    rcases fuel with - | f
    · simp at hfuel
    rw [encodeRecs, List.nil_append]
    rcases htl with hlt | ⟨d, p, rfl, hdlt, hplen⟩
    · rw [readVecsF, if_pos hlt]
      rfl
    · rw [readVecsF,
        if_neg (by rw [List.length_append, encodeI32_length]; omega)]
      simp only [readI32_encode hdlt p]
      rw [if_neg (by exact not_lt.mpr (Int.natCast_nonneg d))]
      have hdrop : (encodeI32 d ++ p).drop 4 = p := by
        have := List.drop_left (encodeI32 d) p
        rwa [encodeI32_length] at this
      have htoNat : ((d : Int)).toNat = d := Int.toNat_natCast d
      rw [hdrop, htoNat, if_pos hplen]
      rfl
  | cons r rs' ih =>
    intro tl fuel hrec htl hfuel
    rcases fuel with - | f
    · simp at hfuel
    obtain ⟨hdlt, hplen⟩ := hrec r (List.mem_cons_self r rs')
    have hshape : encodeRecs (r :: rs') ++ tl =
        encodeI32 r.1 ++ (r.2 ++ (encodeRecs rs' ++ tl)) := by
      rw [encodeRecs, encodeRec]
      simp [List.append_assoc]
    rw [hshape] at hfuel ⊢
    rw [readVecsF,
      if_neg (by
        rw [List.length_append, encodeI32_length]
        omega)]
    simp only [readI32_encode hdlt]
    rw [if_neg (by exact not_lt.mpr (Int.natCast_nonneg r.1))]
    have htoNat : ((r.1 : Int)).toNat = r.1 := Int.toNat_natCast r.1
    have hdrop : (encodeI32 r.1 ++ (r.2 ++ (encodeRecs rs' ++ tl))).drop 4 =
        r.2 ++ (encodeRecs rs' ++ tl) := by
      have := List.drop_left (encodeI32 r.1) (r.2 ++ (encodeRecs rs' ++ tl))
      rwa [encodeI32_length] at this
    rw [hdrop, htoNat,
      if_neg (by rw [List.length_append]; omega)]
    have htake : (r.2 ++ (encodeRecs rs' ++ tl)).take (4 * r.1) = r.2 := by
      have := List.take_left r.2 (encodeRecs rs' ++ tl)
      rwa [hplen] at this
    have hdrop2 : (r.2 ++ (encodeRecs rs' ++ tl)).drop (4 * r.1) =
        encodeRecs rs' ++ tl := by
      have := List.drop_left r.2 (encodeRecs rs' ++ tl)
      rwa [hplen] at this
    have hrest := ih tl f (fun x hx => hrec x (List.mem_cons_of_mem r hx)) htl
      (by
        rw [List.length_append, encodeI32_length, List.length_append, hplen] at hfuel
        omega)
    rw [htake, hdrop2, hrest]
    rfl

/-- C9 (amended).  read_fvecs and read_ivecs throw only when a
record's dimension field is negative (the std::vector length error);
on an unopenable file they return an empty dataset, and on a stream of
complete records followed by a truncated final record (a short
dimension field, or a non-negative dimension with a short payload)
they return the complete records in order and silently drop the
partial one. -/
theorem C9_readers_drop_truncated (rs : List (Nat × List Nat)) (tl : List Nat)
    (hrec : ∀ r ∈ rs, r.1 < 2147483648 ∧ r.2.length = 4 * r.1)
    (htl : tl.length < 4 ∨
      ∃ d p, tl = encodeI32 d ++ p ∧ d < 2147483648 ∧ p.length < 4 * d) :
    read_fvecs none = .ok [] ∧ read_ivecs none = .ok [] ∧
    read_fvecs (some (encodeRecs rs ++ tl)) =
      .ok (rs.map (fun r => ((r.1 : Int), r.2))) ∧
    read_ivecs (some (encodeRecs rs ++ tl)) =
      .ok (rs.map (fun r => ((r.1 : Int), r.2))) := by
  have h := readVecsF_encode rs tl ((encodeRecs rs ++ tl).length + 1) hrec htl
    (by omega)
  exact ⟨rfl, rfl, h, h⟩

/-- Witness for C9 (amended): one complete record of dimension 1
followed by a 2-byte remnant loads as just the complete record. -/
theorem C9_readers_drop_truncated_witness :
    read_fvecs (some (encodeRecs [(1, [9, 9, 9, 9])] ++ [2, 0])) =
      .ok [((1 : Int), [9, 9, 9, 9])] :=
  (C9_readers_drop_truncated [(1, [9, 9, 9, 9])] [2, 0] (by decide)
    (Or.inl (by decide))).2.2.1

/-- C10.  convert-attrs discards the first input line unconditionally:
the conversion result does not depend on the first line's content at
all, and a header-less CSV holding the two values 5 and 7 loses its
first value, converting to just [7]. -/
theorem C10_converter_discards_first_line :
    (∀ (l1 l2 : List Char) (rest : List (List Char)),
      convertAttrs (l1 :: rest) = convertAttrs (l2 :: rest)) ∧
    convertAttrs ["5".data, "7".data] = .ok [7] := by
  constructor
  · intro l1 l2 rest
    rfl
  · rfl

end Digra
